import Mathlib

/-!
Verification of the flychain `rpc` package against its natural-language
specification.  Go source files are embedded shallowly: structs become
structures, `nil`-able fields become `Option`, raw JSON byte slices become
`String` (or `List Char` where character-level reasoning is needed), and
stateful operations become explicit state-passing functions that also return
the ordered list of externally visible effects (wire writes, channel
operations).  Go maps are embedded as association lists whose entry order
stands for one concrete iteration order.
-/

namespace Rpc

/-! ## Wire message model (src/rpc/json.go) -/

/-- Embeds the constant `vsn = "2.0"` from json.go. -/
def vsn : String := "2.0"

/-- Embeds `jsonError` from json.go.  `Data interface{}` with `omitempty`
is embedded as an optional opaque payload. -/
structure jsonError where
  code : Int
  message : String
  data : Option String
deriving DecidableEq

/-- Embeds `jsonrpcMessage` from json.go.  `json.RawMessage` fields are raw
text; a Go `nil` slice / `nil` pointer is `none`.  An id that was the JSON
literal `null` on the wire decodes to `some "null"` (Go keeps the raw bytes),
while an absent id decodes to `none`. -/
structure jsonrpcMessage where
  version : String
  id : Option String
  method : String
  params : Option String
  error : Option jsonError
  result : Option String
deriving DecidableEq

/-- Embeds `jsonrpcMessage.hasValidVersion`. -/
def hasValidVersion (m : jsonrpcMessage) : Bool :=
  m.version == vsn

/-- Embeds `jsonrpcMessage.hasValidID`:
`len(msg.ID) > 0 && msg.ID[0] != '{' && msg.ID[0] != '['`.
The byte-0 test is the first-character test (ids are ASCII-led JSON values). -/
def hasValidID (m : jsonrpcMessage) : Bool :=
  match m.id with
  | none => false
  | some s =>
    match s.data with
    | [] => false
    | c :: _ => c != '{' && c != '['

/-- Embeds `jsonrpcMessage.isNotification`. -/
def isNotification (m : jsonrpcMessage) : Bool :=
  hasValidVersion m && m.id.isNone && m.method != ""

/-- Embeds `jsonrpcMessage.isCall`. -/
def isCall (m : jsonrpcMessage) : Bool :=
  hasValidVersion m && hasValidID m && m.method != ""

/-- Embeds `jsonrpcMessage.isResponse`. -/
def isResponse (m : jsonrpcMessage) : Bool :=
  hasValidVersion m && hasValidID m && m.method == "" &&
    m.params.isNone && (m.result.isSome || m.error.isSome)

/-- Modelled from the spec: the shape constraints of §3 ("Message — a single
wire unit, one of four kinds"): a Call has `method` and a valid `id`; a
Notification has `method` and no `id`; a Response has a valid `id`, no
`method`/`params`, and `result` XOR `error`; all with the correct protocol
version.  This is the spec-side definition used only to state the
"exactly one for syntactically valid messages" refinement of C6. -/
def specSyntacticallyValid (m : jsonrpcMessage) : Bool :=
  hasValidVersion m &&
   ((m.method != "" && m.id.isNone) ||
    (m.method != "" && hasValidID m) ||
    (m.method == "" && m.params.isNone && hasValidID m &&
      (m.result.isSome != m.error.isSome)))

/-- Dispatch outcomes for a single inbound message. -/
inductive MsgDisposition where
  | dispatchCall
  | deliverNotice
  | correlateResponse
  | invalidMsgError
deriving DecidableEq

/-- Modelled from the spec: `handler.handleMsg` is an empty stub in
src/rpc/handler.go (spec §9 notes the placeholder), so the routing contract of
§4.3 is modelled here: a message is classified as notification, call or
response, and a message satisfying none of the three predicates is answered
with a parse/invalid-message error instead of being dispatched. -/
def specHandleMsg (m : jsonrpcMessage) : MsgDisposition :=
  if isNotification m then .deliverNotice
  else if isCall m then .dispatchCall
  else if isResponse m then .correlateResponse
  else .invalidMsgError

/-- Modelled from the spec: the claim-side reading of C7, "hasValidID returns
true iff the id field is present, is not a JSON object or array, and is not
JSON null".  Used only to refute the claim as stated. -/
def specValidIDClaim (m : jsonrpcMessage) : Bool :=
  match m.id with
  | none => false
  | some s =>
    match s.data with
    | [] => true
    | c :: _ => c != '{' && c != '[' && s != "null"

/-- A message whose id is the raw JSON literal `null`; used to separate
`hasValidID` from the claim-side predicate. -/
def msgWithNullId : jsonrpcMessage :=
  ⟨vsn, some "null", "", none, none, some "true"⟩

/-! ## Error responses (src/rpc/json.go, `errorMessage` / `errResponse`) -/

/-- Modelled from the spec: the generic default error code.  The file
declaring the error-code constants (errors.go) is not under src/; json.go
only references `errcodeDefault`.  The claim depends only on this being the
code used when the error value carries no code of its own. -/
def errcodeDefault : Int := -32000

/-- A Go `error` value as `errorMessage` observes it: its message text,
whether the dynamic type implements the coded-error interface `rpc.Error`
(`ErrorCode() int`, embedded as an optional code), and whether it implements
the data-error interface `rpc.DataError` (`ErrorData()`, embedded as an
optional payload). -/
structure GoError where
  message : String
  errorCode : Option Int
  errorData : Option String
deriving DecidableEq

/-- Embeds `errorMessage` from json.go: builds a response with id `null` and
code `errcodeDefault`, then overrides the code when the error implements
`Error` and attaches data when it implements `DataError`. -/
def errorMessage (e : GoError) : jsonrpcMessage :=
  let base : jsonError := ⟨errcodeDefault, e.message, none⟩
  let withCode : jsonError :=
    match e.errorCode with
    | some c => { base with code := c }
    | none => base
  let withData : jsonError :=
    match e.errorData with
    | some d => { withCode with data := some d }
    | none => withCode
  ⟨vsn, some "null", "", none, some withData, none⟩

/-- Embeds `jsonrpcMessage.errResponse` from json.go: `errorMessage` with the
answered request's id. -/
def errResponse (m : jsonrpcMessage) (e : GoError) : jsonrpcMessage :=
  let resp := errorMessage e
  { resp with id := m.id }

/-! ## Hex quantities (src/unnamed hexutil) and BlockNumber (src/rpc/types.go)

Raw text is embedded at the character level as `List Char`; all inputs the
claims touch are ASCII, where Go's byte indexing and character indexing agree.
-/

/-- Embeds the per-digit reading of `strconv.ParseUint(raw, 16, 64)`: a hex
digit's value, `none` for a non-digit. -/
def hexDigitVal (c : Char) : Option Nat :=
  if '0' ≤ c ∧ c ≤ '9' then some (c.toNat - '0'.toNat)
  else if 'a' ≤ c ∧ c ≤ 'f' then some (c.toNat - 'a'.toNat + 10)
  else if 'A' ≤ c ∧ c ≤ 'F' then some (c.toNat - 'A'.toNat + 10)
  else none

/-- The accumulation loop of `strconv.ParseUint` in base 16 (big-endian). -/
def parseHexCore : List Char → Nat → Option Nat
  | [], acc => some acc
  | c :: cs, acc =>
    match hexDigitVal c with
    | none => none
    | some d => parseHexCore cs (acc * 16 + d)

/-- Embeds `strconv.ParseUint(raw, 16, 64)`: syntax error on empty input or a
non-digit, range error when the value does not fit 64 bits.  Go detects the
overflow inside the loop; since every error collapses to `none`, checking the
final value against `2^64` is equivalent. -/
def parseUintHex64 (s : List Char) : Option Nat :=
  match s with
  | [] => none
  | _ :: _ =>
    match parseHexCore s 0 with
    | none => none
    | some n => if n < 2 ^ 64 then some n else none

/-- Embeds `has0xPrefix` from hexutil:
`len(input) >= 2 && input[0] == '0' && (input[1] == 'x' || input[1] == 'X')`. -/
def hasPre0x : List Char → Bool
  | '0' :: c :: _ => c == 'x' || c == 'X'
  | _ => false

/-- Embeds `checkNumber` from hexutil: rejects empty input, missing 0x mark,
empty digit part, and a leading zero digit; returns the digit part. -/
def checkNumber (input : List Char) : Option (List Char) :=
  if input.isEmpty then none
  else if !(hasPre0x input) then none
  else
    let body := input.drop 2
    if body.isEmpty then none
    else if 1 < body.length ∧ body.head? = some '0' then none
    else some body

/-- Embeds `hexutil.DecodeUint64`. -/
def decodeUint64 (input : List Char) : Option Nat :=
  match checkNumber input with
  | none => none
  | some raw => parseUintHex64 raw

/-- Embeds the `BlockNumber` sentinel `SafeBlockNumber = BlockNumber(-4)`. -/
def SafeBlockNumber : Int := -4

/-- Embeds `FinalizedBlockNumber = BlockNumber(-3)`. -/
def FinalizedBlockNumber : Int := -3

/-- Embeds `PendingBlockNumber = BlockNumber(-2)`. -/
def PendingBlockNumber : Int := -2

/-- Embeds `LatestBlockNumber = BlockNumber(-1)`. -/
def LatestBlockNumber : Int := -1

/-- Embeds `EarliestBlockNumber = BlockNumber(0)`. -/
def EarliestBlockNumber : Int := 0

/-- Embeds `math.MaxInt64`. -/
def maxInt64 : Nat := 2 ^ 63 - 1

/-- Embeds `strings.TrimSpace` at the character level. -/
def trimSpaceChars (l : List Char) : List Char :=
  ((l.dropWhile Char.isWhitespace).reverse.dropWhile Char.isWhitespace).reverse

/-- Embeds `BlockNumber.UnmarshalJSON` from types.go: trim space, strip one
pair of surrounding quotes, match the five tags, otherwise decode a hex
quantity and reject values above `math.MaxInt64`.  `none` is any error. -/
def blockNumberUnmarshalJSON (data : List Char) : Option Int :=
  let t := trimSpaceChars data
  let input :=
    if 2 ≤ t.length ∧ t.head? = some '"' ∧ t.getLast? = some '"' then
      (t.drop 1).dropLast
    else t
  if input = ['e', 'a', 'r', 'l', 'i', 'e', 's', 't'] then some EarliestBlockNumber
  else if input = ['l', 'a', 't', 'e', 's', 't'] then some LatestBlockNumber
  else if input = ['p', 'e', 'n', 'd', 'i', 'n', 'g'] then some PendingBlockNumber
  else if input = ['f', 'i', 'n', 'a', 'l', 'i', 'z', 'e', 'd'] then some FinalizedBlockNumber
  else if input = ['s', 'a', 'f', 'e'] then some SafeBlockNumber
  else
    match decodeUint64 input with
    | none => none
    | some n => if maxInt64 < n then none else some (n : Int)

/-- The base-16 digit characters written by `strconv.AppendUint` (lowercase). -/
def hexDigitChar (d : Nat) : Char :=
  if d < 10 then Char.ofNat ('0'.toNat + d) else Char.ofNat ('a'.toNat + (d - 10))

/-- The digit-emitting loop of `strconv.AppendUint(buf, i, 16)`: divide by 16
until below the base, emitting remainders right to left.  The first argument
is fuel bounding the number of divisions (the Go loop terminates because the
value shrinks; any fuel above the value is enough). -/
def hexDigitsCore : Nat → Nat → List Char → List Char
  | 0, _, acc => acc
  | fuel + 1, n, acc =>
    if n < 16 then hexDigitChar n :: acc
    else hexDigitsCore fuel (n / 16) (hexDigitChar (n % 16) :: acc)

/-- Embeds `strconv.AppendUint(buf, i, 16)`: minimal lowercase hex digits,
zero rendered as a single `0`. -/
def natToHexLower (n : Nat) : List Char :=
  hexDigitsCore (n + 1) n []

/-- Embeds `hexutil.Uint64.MarshalText`: `0x` followed by the hex digits. -/
def hexUint64MarshalText (n : Nat) : List Char :=
  '0' :: 'x' :: natToHexLower n

/-- Embeds `BlockNumber.MarshalText` from types.go.  The default branch is
`hexutil.Uint64(bn).MarshalText()`; the `int64 → uint64` conversion is the
value modulo `2^64`. -/
def blockNumberMarshalText (bn : Int) : List Char :=
  if bn = EarliestBlockNumber then ['e', 'a', 'r', 'l', 'i', 'e', 's', 't']
  else if bn = LatestBlockNumber then ['l', 'a', 't', 'e', 's', 't']
  else if bn = PendingBlockNumber then ['p', 'e', 'n', 'd', 'i', 'n', 'g']
  else if bn = FinalizedBlockNumber then ['f', 'i', 'n', 'a', 'l', 'i', 'z', 'e', 'd']
  else if bn = SafeBlockNumber then ['s', 'a', 'f', 'e']
  else hexUint64MarshalText ((bn % (2 ^ 64 : Int)).toNat)

/-- A lowercase hex digit character. -/
def isLowerHexDigit (c : Char) : Bool :=
  ('0' ≤ c && c ≤ '9') || ('a' ≤ c && c ≤ 'f')

/-- Modelled from the spec: a canonical hex quantity per hexutil's encoding
rules ("integers use the fewest digits, no leading zero digits, zero is
0x0"): `0x`, at least one lowercase hex digit, no leading zero digit unless
the quantity is the single digit 0. -/
def isCanonicalHexQuantity (s : List Char) : Bool :=
  s.head? == some '0' && (s.drop 1).head? == some 'x' &&
    !(s.drop 2).isEmpty && (s.drop 2).all isLowerHexDigit &&
    ((s.drop 2).length == 1 || (s.drop 2).head? != some '0')

/-! ## Association-list model of Go maps

Go maps are embedded as association lists; `insertA` is map assignment
(`m[k] = v`), `eraseA` is `delete(m, k)`, `lookupA` is `m[k]` (with `none`
for a missing key). -/

/-- Lookup in the association-list map model. -/
def lookupA {β : Type} : List (String × β) → String → Option β
  | [], _ => none
  | (k, v) :: rest, key => if k == key then some v else lookupA rest key

/-- Key removal in the association-list map model. -/
def eraseA {β : Type} : List (String × β) → String → List (String × β)
  | [], _ => []
  | (k, v) :: rest, key =>
    if k == key then eraseA rest key else (k, v) :: eraseA rest key

/-- Map assignment in the association-list map model. -/
def insertA {β : Type} (l : List (String × β)) (key : String) (v : β) :
    List (String × β) :=
  eraseA l key ++ [(key, v)]

/-! ## Notifier (src/rpc/subscription.go) -/

/-- Go-side error outcomes of `Notify`/`activate` that are returned (not
panicked): a `json.Marshal` failure or a `writeJSON` failure. -/
inductive NotifyErr where
  | marshalErr
  | writeErr
deriving DecidableEq

/-- Contract violations that `panic` in the source. -/
inductive NotifierPanic where
  | notifyBeforeCreate
  | notifyWrongId
deriving DecidableEq

/-- The mutable fields of `Notifier` that `Notify`/`activate` touch: the
created subscription (reduced to its id), the pre-activation buffer, and the
`callReturned`/`activated` flags. -/
structure NotifierState where
  subid : Option String
  buffer : List String
  callReturned : Bool
  activated : Bool
deriving DecidableEq

/-- Embeds `Notifier.Notify`.  `enc` is the `json.Marshal` outcome (`none` =
marshal failure, returned before any state change); `writeOk` is whether the
underlying `writeJSON` of an immediate send succeeds.  Returns the new state,
the list of payloads written to the connection, and the returned error;
`Except.error` is a contract-violation panic. -/
def notifierNotify (n : NotifierState) (id : String) (enc : Option String)
    (writeOk : Bool) :
    Except NotifierPanic (NotifierState × List String × Option NotifyErr) :=
  match enc with
  | none => .ok (n, [], some .marshalErr)
  | some payload =>
    match n.subid with
    | none => .error .notifyBeforeCreate
    | some sid =>
      if sid ≠ id then .error .notifyWrongId
      else if n.activated then
        if writeOk then .ok (n, [payload], none)
        else .ok (n, [], some .writeErr)
      else .ok ({ n with buffer := n.buffer ++ [payload] }, [], none)

/-- The flush loop of `Notifier.activate`: writes buffered payloads in order;
`ok i` says whether the i-th write succeeds; stops at the first failure. -/
def flushLoop : List String → (Nat → Bool) → Nat → List String × Option NotifyErr
  | [], _, _ => ([], none)
  | p :: ps, ok, i =>
    if ok i then
      let r := flushLoop ps ok (i + 1)
      (p :: r.1, r.2)
    else ([], some .writeErr)

/-- Embeds `Notifier.activate`: flush the buffer in submission order; on a
write failure return the error without setting `activated`; otherwise set
`activated`.  (The source keeps the buffer after a successful flush; so does
this model.) -/
def notifierActivate (n : NotifierState) (ok : Nat → Bool) :
    NotifierState × List String × Option NotifyErr :=
  let r := flushLoop n.buffer ok 0
  match r.2 with
  | some e => (n, r.1, some e)
  | none => ({ n with activated := true }, r.1, none)

/-- Runs a sequence of `Notify` calls (all with the matching id, successful
marshalling and writes), collecting written payloads. -/
def runNotifies (n : NotifierState) (id : String) :
    List String → Except NotifierPanic (NotifierState × List String)
  | [] => .ok (n, [])
  | d :: ds =>
    match notifierNotify n id (some d) true with
    | .error v => .error v
    | .ok (n2, ws, _) =>
      match runNotifies n2 id ds with
      | .error v => .error v
      | .ok (n3, ws2) => .ok (n3, ws ++ ws2)

/-! ## Client-side subscription forwarding (src/rpc/subscription.go) -/

/-- Embeds `maxClientSubscriptionBuffer` from src/rpc/client.go. -/
def maxClientSubscriptionBuffer : Nat := 20000

/-- The error values the forwarding loop and run task deal in. -/
inductive FwdError where
  | unsubscribed
  | clientQuit
  | queueOverflow
  | decodeFail
  | connErr (tag : Nat)
deriving DecidableEq

/-- One select outcome of `ClientSubscription.forward`: a value arriving on
`sub.quit`, a value arriving on `sub.in` (already run through
`sub.unmarshal`; `none` is a decode failure), or the consumer sink accepting
the front buffered element. -/
inductive FwdStep where
  | quitSig (e : Option FwdError)
  | incoming (v : Option Nat)
  | sinkReady
deriving DecidableEq

/-- The state of the forwarding loop after a schedule: still running (with
buffer and delivered events), or returned `(unsubscribeServer, err)` as in
the source. -/
inductive FwdResult where
  | running (buffer delivered : List Nat)
  | terminated (unsubscribeServer : Bool) (err : Option FwdError)
      (buffer delivered : List Nat)
deriving DecidableEq

/-- Embeds `ClientSubscription.forward`: the select loop over quit / in /
send.  When the buffer is empty the send case is omitted, so a `sinkReady`
step is a no-op; an incoming value is dropped with the overflow error when
the buffer already holds `maxClientSubscriptionBuffer` elements (checked
after decoding, as in the source). -/
def forwardRun : List FwdStep → List Nat → List Nat → FwdResult
  | [], buf, dlv => .running buf dlv
  | s :: rest, buf, dlv =>
    match s with
    | .quitSig e =>
      if e = some .unsubscribed then .terminated true none buf dlv
      else .terminated false e buf dlv
    | .incoming none => .terminated true (some .decodeFail) buf dlv
    | .incoming (some v) =>
      if buf.length = maxClientSubscriptionBuffer then
        .terminated true (some .queueOverflow) buf dlv
      else forwardRun rest (buf ++ [v]) dlv
    | .sinkReady =>
      match buf with
      | [] => forwardRun rest [] dlv
      | x :: xs => forwardRun rest xs (dlv ++ [x])

/-- The buffer length of a forward outcome. -/
def FwdResult.bufLen : FwdResult → Nat
  | .running buf _ => buf.length
  | .terminated _ _ buf _ => buf.length

/-- The delivered-events list of a forward outcome. -/
def FwdResult.deliveredEvents : FwdResult → List Nat
  | .running _ dlv => dlv
  | .terminated _ _ _ dlv => dlv

/-- Externally visible actions of `ClientSubscription.run` after `forward`
returns. -/
inductive RunEff where
  | closeForwardDone
  | requestUnsubscribe
  | deliverErr (e : Option FwdError)
deriving DecidableEq

/-- Embeds the tail of `ClientSubscription.run`: close `forwardDone`, issue
the server-side unsubscribe when `forward` asked for it, then deliver the
error on `sub.err` (with `ErrClientQuit` converted to `nil` first; a `nil`
error is not delivered). -/
def runAfterForward (unsub : Bool) (err : Option FwdError) : List RunEff :=
  [.closeForwardDone] ++
    (if unsub then [.requestUnsubscribe] else []) ++
    (match err with
     | none => []
     | some .clientQuit => [.deliverErr none]
     | some e => [.deliverErr (some e)])

/-! ## ClientSubscription.Unsubscribe (src/rpc/subscription.go) -/

/-- A Go channel of errors reduced to what `Unsubscribe` touches: queued
values, the closed flag, and how many times `close` ran (a second `close`
would fault). -/
structure ErrChanState where
  queued : List (Option String)
  closed : Bool
  closeCount : Nat
deriving DecidableEq

/-- `close(ch)`. -/
def chanClose (c : ErrChanState) : ErrChanState :=
  { c with closed := true, closeCount := c.closeCount + 1 }

/-- Result of a non-blocking inspection of a receive on the channel. -/
inductive ErrChanRead where
  | blocked
  | received (v : Option String)
  | closedNoValue
deriving DecidableEq

/-- A receive: a queued value if any, the closed-no-value outcome on a closed
empty channel, otherwise the read blocks. -/
def readErrChan (c : ErrChanState) : ErrChanRead :=
  match c.queued with
  | v :: _ => .received v
  | [] => if c.closed then .closedNoValue else .blocked

/-- The fields of `ClientSubscription` that `Unsubscribe` touches: the
`sync.Once` guard `errOnce` and the error channel `err`. -/
structure ClientSubUnsub where
  errOnceUsed : Bool
  errChan : ErrChanState
deriving DecidableEq

/-- The suspension points `Unsubscribe` goes through on its first call. -/
inductive UnsubEffect where
  | signalQuit
  | waitUnsubDone
  | closeErrChan
deriving DecidableEq

/-- Embeds `ClientSubscription.Unsubscribe`: `errOnce.Do` runs the body only
the first time (`sync.Once` serialises concurrent callers, so the sequential
model captures the concurrent contract); the body signals `quit` (or learns
the task is already done), waits for `unsubDone`, then closes `sub.err`. -/
def clientSubUnsubscribe (s : ClientSubUnsub) : ClientSubUnsub × List UnsubEffect :=
  if s.errOnceUsed then (s, [])
  else ({ errOnceUsed := true, errChan := chanClose s.errChan },
    [.signalQuit, .waitUnsubDone, .closeErrChan])

/-- Iterated `Unsubscribe` calls. -/
def unsubIter (s : ClientSubUnsub) : Nat → ClientSubUnsub
  | 0 => s
  | k + 1 => (clientSubUnsubscribe (unsubIter s k)).1

/-- The `Unsubscribe`-relevant state of a freshly built subscription
(`newClientSubscription`): `errOnce` unused, `err` channel open and empty. -/
def newClientSubUnsub : ClientSubUnsub := ⟨false, ⟨[], false, 0⟩⟩

/-! ## handler.handleResponse (src/rpc/handler.go) -/

/-- The `ClientSubscription` fields `handleResponse` touches: just the
mutable `subid` (zero value `""` at creation). -/
structure ClientSubMini where
  subid : String
deriving DecidableEq

/-- The `requestOp` fields `handleResponse` reads: the request ids and the
optional subscription of a subscribe call. -/
structure RequestOpMini where
  ids : List String
  sub : Option ClientSubMini
deriving DecidableEq

/-- The handler maps `handleResponse` touches. -/
structure HrState where
  respWait : List (String × RequestOpMini)
  clientSubs : List (String × ClientSubMini)
deriving DecidableEq

/-- Models `json.Unmarshal(raw, &s)` for a string target: succeeds exactly on
a quoted JSON string (escape sequences are not modelled; none of the claims
depend on them); `none` input (a response without result) fails. -/
def unmarshalJSONString (raw : Option String) : Option String :=
  match raw with
  | none => none
  | some s =>
    match s.data with
    | '"' :: rest =>
      if rest ≠ [] ∧ rest.getLast? = some '"' then some (String.mk rest.dropLast)
      else none
    | _ => none

/-- The final `op.err` value in `handleResponse`. -/
inductive C1Err where
  | fromResponse (je : jsonError)
  | decodeErr
deriving DecidableEq

/-- What one `handleResponse` call did: the new maps, the messages forwarded
on `op.resp`, whether `op.resp` was closed, the final `op.err`, whether
`go op.sub.run()` was started, and the key the subscription was registered
under (if any). -/
structure HandleResponseOut where
  state : HrState
  deliveredToResp : List jsonrpcMessage
  respClosed : Bool
  opErr : Option C1Err
  runStarted : Bool
  registeredUnder : Option String
deriving DecidableEq

/-- Embeds `handler.handleResponse`.  Note two oddities kept faithfully from
the source: the `msg.Error != nil` branch stores `op.err` but does not
return, so that value is immediately overwritten by the `json.Unmarshal`
outcome; and the unmarshal outcome is tested with `!= nil`, so the run task
is started and the subscription registered exactly when decoding FAILS (in
which case `op.sub.subid` keeps its previous value). -/
def handleResponse (st : HrState) (msg : jsonrpcMessage) : HandleResponseOut :=
  let key := msg.id.getD ""
  match lookupA st.respWait key with
  | none => ⟨st, [], false, none, false, none⟩
  | some op =>
    let st1 : HrState := { st with respWait := eraseA st.respWait key }
    match op.sub with
    | none => ⟨st1, [msg], false, none, false, none⟩
    | some sub =>
      match unmarshalJSONString msg.result with
      | some sid =>
        let _ : ClientSubMini := { sub with subid := sid }
        ⟨st1, [], true, none, false, none⟩
      | none =>
        ⟨{ st1 with clientSubs := insertA st1.clientSubs sub.subid sub },
          [], true, some .decodeErr, true, some sub.subid⟩

/-- A pending subscribe request with id `1` whose op carries a fresh
client-side subscription (subid zero value). -/
def pendingSubSt : HrState := ⟨[("1", ⟨["1"], some ⟨""⟩⟩)], []⟩

/-- A successful subscribe response: id `1`, result the JSON string
`"0xabc"` (a subscription id), no error. -/
def subscribeRespMsg : jsonrpcMessage :=
  ⟨vsn, some "1", "", none, none, some "\"0xabc\""⟩

/-- A subscribe response whose result is not a JSON string, so unmarshalling
into the subscription id fails. -/
def badSubscribeRespMsg : jsonrpcMessage :=
  ⟨vsn, some "1", "", none, none, some "nope"⟩

/-! ## handler.close (src/rpc/handler.go) -/

/-- Externally visible events of `handler.close`, in program order.  A
`closeRequest op reason` event is "set `op.err = reason` and `close(op.resp)`";
`closeClientSub tag reason` is `sub.close(reason)`; `waitCalls` is
`h.CallWG.Wait()`; `cancelRoot` is `h.cancelRoot()`; `serverSubDeliver id
reason` is `s.err <- reason` and `serverSubClose id` is `close(s.err)`. -/
inductive CloseEvent where
  | closeRequest (op : Nat) (reason : String)
  | closeClientSub (tag : Nat) (reason : String)
  | waitCalls
  | cancelRoot
  | serverSubDeliver (id : String) (reason : String)
  | serverSubClose (id : String)
deriving DecidableEq

/-- The handler maps `close` drains: pending requests (ids to op tags; one op
may wait under several ids), client subscriptions, server subscriptions. -/
structure CloseState where
  respWait : List (String × Nat)
  clientSubs : List (String × Nat)
  serverSubs : List (String × Nat)
deriving DecidableEq

/-- The `respWait` loop of `cancelAllRequests` with its `didClose` set: an op
already closed (or exempted) is skipped, otherwise it is closed once and
recorded. -/
def cancelRequestsLoop (reason : String) :
    List (String × Nat) → List Nat → List CloseEvent
  | [], _ => []
  | (_, op) :: rest, did =>
    if op ∈ did then cancelRequestsLoop reason rest did
    else .closeRequest op reason :: cancelRequestsLoop reason rest (op :: did)

/-- Embeds `handler.cancelAllRequests`: cancel pending requests (skipping the
exempted in-flight one), then close every client-side subscription. -/
def cancelAllRequests (st : CloseState) (reason : String) (exempt : Option Nat) :
    List CloseEvent :=
  cancelRequestsLoop reason st.respWait
      (match exempt with | some t => [t] | none => []) ++
    st.clientSubs.map (fun p => .closeClientSub p.2 reason)

/-- Embeds `handler.cancelServerSubscriptions`: deliver the reason on each
server subscription's error slot, then close the slot. -/
def cancelServerSubscriptions (st : CloseState) (reason : String) :
    List CloseEvent :=
  st.serverSubs.flatMap fun p => [.serverSubDeliver p.1 reason, .serverSubClose p.1]

/-- Embeds `handler.close`: `cancelAllRequests`, `CallWG.Wait()`,
`cancelRoot()`, `cancelServerSubscriptions`, in that order. -/
def handlerCloseTrace (st : CloseState) (reason : String) (exempt : Option Nat) :
    List CloseEvent :=
  cancelAllRequests st reason exempt ++ [.waitCalls] ++ [.cancelRoot] ++
    cancelServerSubscriptions st reason

/-- A sample handler state: one pending request, one client subscription, one
server subscription. -/
def c3SampleState : CloseState := ⟨[("1", 1)], [("s", 2)], [("a", 3)]⟩

/-! ## serviceRegistry.registerName (src/rpc/service.go) -/

/-- A Go reflect type reduced to the three predicates service.go tests:
`isContextType`, `isSubscriptionType`, `isErrorType` (each already drills
through pointers in the source). -/
structure GoType where
  isCtx : Bool
  isSub : Bool
  isErr : Bool
deriving DecidableEq

/-- A method of the receiver as reflection reports it: name, `PkgPath`
(empty iff exported), and the in/out type lists of `method.Func` (the
receiver is `ins[0]`). -/
structure GoMethod where
  name : String
  pkgPath : String
  ins : List GoType
  outs : List GoType
deriving DecidableEq

/-- Embeds `isPubSub`: at least two ins (receiver plus context), exactly two
outs, `ins[1]` a context, `outs[0]` a Subscription, `outs[1]` an error. -/
def isPubSubSig (ins outs : List GoType) : Bool :=
  match ins, outs with
  | _ :: i1 :: _, [o0, o1] => i1.isCtx && o0.isSub && o1.isErr
  | _, _ => false

/-- Embeds `callback` (the descriptor fields): argument types, whether the
first (post-receiver) parameter is a context, the error-return position
(`-1` when the method cannot return an error), and the subscription flag. -/
structure callback where
  argTypes : List GoType
  hasCtx : Bool
  errPos : Int
  isSubscribe : Bool
deriving DecidableEq

/-- Embeds `callback.makeArgTypes` for a method (receiver always valid):
skip the receiver, then skip a leading context parameter. -/
def makeArgTypes (ins : List GoType) : List GoType × Bool :=
  let rest := ins.drop 1
  match rest with
  | t :: ts => if t.isCtx then (ts, true) else (rest, false)
  | [] => ([], false)

/-- Embeds `newCallback`: reject more than two return values, and a
two-value return unless it is (non-error, error); record the error
position. -/
def newCallback (m : GoMethod) : Option callback :=
  let isSub := isPubSubSig m.ins m.outs
  let args := makeArgTypes m.ins
  match m.outs with
  | [] => some ⟨args.1, args.2, -1, isSub⟩
  | [o0] =>
    if o0.isErr then some ⟨args.1, args.2, 0, isSub⟩
    else some ⟨args.1, args.2, -1, isSub⟩
  | [o0, o1] =>
    if o0.isErr || !o1.isErr then none else some ⟨args.1, args.2, 1, isSub⟩
  | _ => none

/-- Embeds `formatName`: lowercase the first character. -/
def formatName (s : String) : String :=
  match s.data with
  | [] => ""
  | c :: cs => String.mk (c.toLower :: cs)

/-- Embeds `suitableCallbacks`: keep the exported methods accepted by
`newCallback`, keyed by their formatted name. -/
def suitableCallbacks (methods : List GoMethod) : List (String × callback) :=
  methods.foldl
    (fun acc m =>
      if m.pkgPath ≠ "" then acc
      else
        match newCallback m with
        | none => acc
        | some cb => insertA acc (formatName m.name) cb)
    []

/-- Embeds `service`: per-namespace callback and subscription maps. -/
structure service where
  name : String
  callbacks : List (String × callback)
  subscriptions : List (String × callback)
deriving DecidableEq

/-- The per-callback step of `registerName`'s merge loop. -/
def registerStep (s : service) (p : String × callback) : service :=
  if p.2.isSubscribe then
    { s with subscriptions := insertA s.subscriptions p.1 p.2 }
  else
    { s with callbacks := insertA s.callbacks p.1 p.2 }

/-- Embeds `serviceRegistry.registerName`: empty name is an error; a receiver
with no suitable callbacks is an error; otherwise the callbacks are merged
into the (existing or fresh) service for that name. -/
def registryRegisterName (services : List (String × service)) (name : String)
    (rcvr : List GoMethod) : Except String (List (String × service)) :=
  if name = "" then .error "no service name"
  else
    let callbacks := suitableCallbacks rcvr
    if callbacks.isEmpty then .error "no suitable methods"
    else
      let svc :=
        match lookupA services name with
        | some s => s
        | none => ⟨name, [], []⟩
      let svc2 := callbacks.foldl registerStep svc
      .ok (insertA services name svc2)

end Rpc

namespace Rpc

/-! ## Theorems -/

/-- C6: for every jsonrpcMessage at most one of isNotification / isCall /
isResponse holds; for every message that is syntactically valid in the sense
of spec §3 exactly one holds (given at-most-one, the disjunction); and a
message satisfying none of the three is routed to an invalid-message error
instead of being dispatched (dispatch modelled from the spec, the source's
handleMsg being a stub). -/
theorem C6_message_kind_trichotomy (m : jsonrpcMessage) :
    (¬(isNotification m = true ∧ isCall m = true) ∧
     ¬(isNotification m = true ∧ isResponse m = true) ∧
     ¬(isCall m = true ∧ isResponse m = true)) ∧
    (specSyntacticallyValid m = true →
      (isNotification m = true ∨ isCall m = true ∨ isResponse m = true)) ∧
    ((isNotification m = false ∧ isCall m = false ∧ isResponse m = false) →
      specHandleMsg m = MsgDisposition.invalidMsgError) := by
  obtain ⟨v, id, meth, par, err, res⟩ := m
  refine ⟨⟨?_, ?_, ?_⟩, ?_, ?_⟩
  · rintro ⟨h1, h2⟩
    simp only [isNotification, isCall, Bool.and_eq_true,
      Option.isNone_iff_eq_none] at h1 h2
    rw [h1.1.2] at h2
    simp [hasValidID] at h2
  · rintro ⟨h1, h2⟩
    simp only [isNotification, isResponse, Bool.and_eq_true,
      Option.isNone_iff_eq_none] at h1 h2
    rw [h1.1.2] at h2
    simp [hasValidID] at h2
  · rintro ⟨h1, h2⟩
    simp only [isCall, isResponse, Bool.and_eq_true, bne_iff_ne,
      beq_iff_eq] at h1 h2
    exact h1.2 h2.1.1.2
  · intro h
    simp only [specSyntacticallyValid, hasValidVersion, Bool.and_eq_true,
      Bool.or_eq_true, bne_iff_ne, beq_iff_eq,
      Option.isNone_iff_eq_none] at h
    obtain ⟨hv, (hA | hB) | hC⟩ := h
    · refine Or.inl ?_
      simp only [isNotification, hasValidVersion, Bool.and_eq_true,
        bne_iff_ne, beq_iff_eq, Option.isNone_iff_eq_none]
      exact ⟨⟨hv, hA.2⟩, hA.1⟩
    · refine Or.inr (Or.inl ?_)
      simp only [isCall, hasValidVersion, Bool.and_eq_true,
        bne_iff_ne, beq_iff_eq]
      exact ⟨⟨hv, hB.2⟩, hB.1⟩
    · refine Or.inr (Or.inr ?_)
      obtain ⟨⟨⟨hm, hp⟩, hvi⟩, hx⟩ := hC
      simp only [isResponse, hasValidVersion, Bool.and_eq_true,
        Bool.or_eq_true, beq_iff_eq, Option.isNone_iff_eq_none]
      refine ⟨⟨⟨⟨hv, hvi⟩, hm⟩, hp⟩, ?_⟩
      cases hr : res.isSome
      · cases he : err.isSome
        · exfalso
          rw [hr, he] at hx
          exact hx rfl
        · exact Or.inr rfl
      · exact Or.inl rfl
  · rintro ⟨h1, h2, h3⟩
    simp [specHandleMsg, h1, h2, h3]

/-- C6 witness: the implications of the trichotomy theorem discharged at a
concrete valid call message and at a concrete garbage message. -/
theorem C6_message_kind_trichotomy_witness :
    (specSyntacticallyValid ⟨"2.0", some "1", "m_x", none, none, none⟩ = true ∧
      (isNotification ⟨"2.0", some "1", "m_x", none, none, none⟩ = true ∨
       isCall ⟨"2.0", some "1", "m_x", none, none, none⟩ = true ∨
       isResponse ⟨"2.0", some "1", "m_x", none, none, none⟩ = true)) ∧
    ((isNotification ⟨"1.0", none, "", none, none, none⟩ = false ∧
      isCall ⟨"1.0", none, "", none, none, none⟩ = false ∧
      isResponse ⟨"1.0", none, "", none, none, none⟩ = false) ∧
     specHandleMsg ⟨"1.0", none, "", none, none, none⟩ =
       MsgDisposition.invalidMsgError) :=
  ⟨⟨by decide,
    (C6_message_kind_trichotomy ⟨"2.0", some "1", "m_x", none, none, none⟩).2.1
      (by decide)⟩,
   ⟨by decide,
    (C6_message_kind_trichotomy ⟨"1.0", none, "", none, none, none⟩).2.2
      (by decide)⟩⟩

/-- C7 counterexample: a message whose id is the raw JSON literal `null` is
accepted by the source's hasValidID, while the claim says a null id must be
rejected. -/
theorem C7_counterexample_null_id :
    hasValidID msgWithNullId = true ∧ specValidIDClaim msgWithNullId = false := by
  decide

/-- C7 amended: hasValidID accepts exactly the messages whose id field is
present and non-empty and does not start a JSON object or array (first byte
neither `{` nor `[`); the JSON literal `null` is accepted, not excluded. -/
theorem C7_hasValidID_characterisation (m : jsonrpcMessage) :
    hasValidID m = true ↔
      (∃ s c cs, m.id = some s ∧ s.data = c :: cs ∧ c ≠ '{' ∧ c ≠ '[') := by
  constructor
  · intro h
    rcases hid : m.id with _ | s
    · simp [hasValidID, hid] at h
    · rcases hd : s.data with _ | ⟨c, cs⟩
      · simp [hasValidID, hid, hd] at h
      · simp only [hasValidID, hid, hd, Bool.and_eq_true, bne_iff_ne] at h
        exact ⟨s, c, cs, rfl, hd, h.1, h.2⟩
  · rintro ⟨s, c, cs, hid, hd, h1, h2⟩
    simp only [hasValidID, hid, hd, Bool.and_eq_true, bne_iff_ne]
    exact ⟨h1, h2⟩

/-- A lowercase hex digit character has a digit value below 16, and the
base-16 printer maps that value back to the same character. -/
theorem lowerHex_spec (c : Char) (h : isLowerHexDigit c = true) :
    ∃ d, hexDigitVal c = some d ∧ d < 16 ∧ hexDigitChar d = c := by
  have h0 : '0'.toNat = 48 := rfl
  have ha : 'a'.toNat = 97 := rfl
  simp only [isLowerHexDigit, Bool.or_eq_true, Bool.and_eq_true,
    decide_eq_true_eq] at h
  rcases h with ⟨h1, h2⟩ | ⟨h1, h2⟩
  · have n1 : 48 ≤ c.toNat := h1
    have n2 : c.toNat ≤ 57 := h2
    refine ⟨c.toNat - '0'.toNat, ?_, by omega, ?_⟩
    · unfold hexDigitVal
      rw [if_pos ⟨h1, h2⟩]
    · unfold hexDigitChar
      rw [if_pos (by omega)]
      have he : '0'.toNat + (c.toNat - '0'.toNat) = c.toNat := by omega
      rw [he, Char.ofNat_toNat]
  · have n1 : 97 ≤ c.toNat := h1
    have n2 : c.toNat ≤ 102 := h2
    refine ⟨c.toNat - 'a'.toNat + 10, ?_, by omega, ?_⟩
    · unfold hexDigitVal
      rw [if_neg, if_pos ⟨h1, h2⟩]
      rintro ⟨g1, g2⟩
      have : c.toNat ≤ 57 := g2
      omega
    · unfold hexDigitChar
      rw [if_neg (by omega)]
      have he : 'a'.toNat + (c.toNat - 'a'.toNat + 10 - 10) = c.toNat := by omega
      rw [he, Char.ofNat_toNat]

/-- The `ParseUint` accumulation loop on all-hex input computes the big-endian
value (expressed through `Nat.ofDigits` on the reversed digit list). -/
theorem parseHexCore_spec (cs : List Char) (acc : Nat)
    (h : ∀ c ∈ cs, isLowerHexDigit c = true) :
    parseHexCore cs acc =
      some ((Nat.ofDigits 16 ((cs.map fun c => (hexDigitVal c).getD 0).reverse) : ℕ) +
        acc * 16 ^ cs.length) := by
  induction cs generalizing acc with
  | nil =>
    simp only [parseHexCore, List.map_nil, List.reverse_nil, Nat.ofDigits_nil,
      List.length_nil, pow_zero, mul_one, zero_add]
  | cons c cs ih =>
    obtain ⟨d, hv, hlt, hc⟩ := lowerHex_spec c (h c (List.mem_cons_self c cs))
    have hg : (hexDigitVal c).getD 0 = d := by
      rw [hv]
      rfl
    simp only [parseHexCore, hv]
    rw [ih _ (fun x hx => h x (List.mem_cons_of_mem c hx))]
    congr 1
    simp only [List.map_cons, hg, List.reverse_cons, Nat.ofDigits_append,
      List.length_reverse, List.length_map, List.length_cons,
      Nat.ofDigits_singleton, Nat.cast_id]
    ring

/-- The fuel-based hex printer agrees with `Nat.digits` once the fuel exceeds
the value being printed. -/
theorem hexDigitsCore_digits (fuel : Nat) : ∀ (n : Nat) (acc : List Char),
    n < fuel → n ≠ 0 →
    hexDigitsCore fuel n acc =
      ((Nat.digits 16 n).map hexDigitChar).reverse ++ acc := by
  induction fuel with
  | zero => omega
  | succ fuel ih =>
    intro n acc hf hn
    unfold hexDigitsCore
    by_cases hlt : n < 16
    · rw [if_pos hlt]
      rw [Nat.digits_of_lt 16 n hn hlt]
      simp
    · rw [if_neg hlt]
      have h16 : 16 ≤ n := le_of_not_lt hlt
      have hdiv_ne : n / 16 ≠ 0 := by
        intro hcon
        have := (Nat.div_eq_zero_iff (by omega : 0 < 16)).mp hcon
        omega
      have hlt2 : n / 16 < fuel := by
        have := Nat.div_lt_self (by omega : 0 < n) (by norm_num : 1 < 16)
        omega
      rw [ih _ _ hlt2 hdiv_ne]
      rw [Nat.digits_def' (by norm_num : (1:ℕ) < 16) (by omega : 0 < n)]
      simp [List.reverse_cons]

/-- Canonical digit strings round-trip: the parse loop yields a nonzero value
whose printed form is the original digit string. -/
theorem canonical_digits_roundtrip (rest : List Char) (hne : rest ≠ [])
    (hall : ∀ c ∈ rest, isLowerHexDigit c = true)
    (hlead : rest.length = 1 ∨ rest.head? ≠ some '0')
    (hz : rest ≠ ['0']) :
    ∃ n, parseHexCore rest 0 = some n ∧ n ≠ 0 ∧ natToHexLower n = rest := by
  have hparse := parseHexCore_spec rest 0 hall
  set f : Char → Nat := fun c => (hexDigitVal c).getD 0 with hf
  set L : List Nat := (rest.map f).reverse with hL
  set n : Nat := Nat.ofDigits 16 L with hn
  refine ⟨n, by simpa using hparse, ?_⟩
  obtain ⟨c0, rest', rfl⟩ : ∃ c0 rest', rest = c0 :: rest' := by
    cases rest with
    | nil => exact absurd rfl hne
    | cons a t => exact ⟨a, t, rfl⟩
  have hc0 : c0 ≠ '0' := by
    rcases hlead with hlen | hhead
    · have : rest' = [] := by
        cases rest' with
        | nil => rfl
        | cons x xs => simp at hlen
      subst this
      intro hcon
      exact hz (by rw [hcon])
    · intro hcon
      subst hcon
      exact hhead rfl
  have hfd : ∀ c ∈ c0 :: rest', f c < 16 ∧ hexDigitChar (f c) = c := by
    intro c hc
    obtain ⟨d, hvd, hld, hcd⟩ := lowerHex_spec c (hall c hc)
    have heq : f c = d := by
      show (hexDigitVal c).getD 0 = d
      rw [hvd]
      rfl
    rw [heq]
    exact ⟨hld, hcd⟩
  have hfc0 : f c0 ≠ 0 := by
    intro hcon
    have h2 := (hfd c0 (List.mem_cons_self c0 rest')).2
    rw [hcon] at h2
    apply hc0
    rw [← h2]
    decide
  have hLne : L ≠ [] := by
    rw [hL]
    simp
  have hw1 : ∀ l ∈ L, l < 16 := by
    intro l hl
    rw [hL] at hl
    rw [List.mem_reverse] at hl
    obtain ⟨c, hc, rfl⟩ := List.mem_map.mp hl
    exact (hfd c hc).1
  have hw2 : ∀ hh : L ≠ [], L.getLast hh ≠ 0 := by
    intro hh
    have hlast : L.getLast? = some (f c0) := by
      rw [hL, List.getLast?_reverse]
      simp
    have := List.getLast?_eq_getLast L hh
    rw [hlast] at this
    intro hcon
    exact hfc0 ((Option.some_inj.mp this).trans hcon)
  have hdig : Nat.digits 16 n = L := by
    rw [hn]
    exact Nat.digits_ofDigits 16 (by norm_num) L hw1 hw2
  have hnz : n ≠ 0 := by
    intro hcon
    rw [hcon, Nat.digits_zero] at hdig
    exact hLne hdig.symm
  refine ⟨hnz, ?_⟩
  unfold natToHexLower
  rw [hexDigitsCore_digits (n + 1) n [] (by omega) hnz]
  rw [hdig, hL]
  rw [List.map_reverse, List.reverse_reverse, List.append_nil, List.map_map]
  conv_rhs => rw [← List.map_id (c0 :: rest')]
  refine List.map_congr_left ?_
  intro x hx
  exact (hfd x hx).2

/-- Dropping from the front removes nothing when no element satisfies the
predicate. -/
theorem dropWhile_id_of_none (p : Char → Bool) (l : List Char)
    (h : ∀ c ∈ l, p c = false) : l.dropWhile p = l := by
  cases l with
  | nil => rfl
  | cons a t =>
    rw [List.dropWhile_cons]
    rw [h a (List.mem_cons_self a t)]
    simp

/-- Trimming whitespace is the identity on whitespace-free text. -/
theorem trimSpaceChars_id (l : List Char)
    (h : ∀ c ∈ l, c.isWhitespace = false) : trimSpaceChars l = l := by
  unfold trimSpaceChars
  rw [dropWhile_id_of_none _ _ h]
  rw [dropWhile_id_of_none _ _ (fun c hc => h c (List.mem_reverse.mp hc))]
  exact List.reverse_reverse l

/-- Hex digit characters are not whitespace. -/
theorem lowerHex_not_ws (c : Char) (h : isLowerHexDigit c = true) :
    c.isWhitespace = false := by
  cases hw : c.isWhitespace
  · rfl
  · exfalso
    simp only [isLowerHexDigit, Bool.or_eq_true, Bool.and_eq_true,
      decide_eq_true_eq] at h
    simp only [Char.isWhitespace, Bool.or_eq_true, decide_eq_true_eq] at hw
    rcases hw with ((rfl | rfl) | rfl) | rfl <;>
      rcases h with ⟨h1, h2⟩ | ⟨h1, h2⟩ <;>
        exact absurd h1 (by decide)

/-- On nonempty input `ParseUint` is the accumulation loop followed by the
64-bit range check. -/
theorem parseUintHex64_ne_nil (l : List Char) (h : l ≠ []) :
    parseUintHex64 l =
      (match parseHexCore l 0 with
       | none => none
       | some n => if n < 2 ^ 64 then some n else none) := by
  cases l with
  | nil => exact absurd rfl h
  | cons a t => rfl

/-- C9 counterexample: `0x0` is a canonical hex quantity, decodes to the
value 0 (the earliest sentinel), and that value re-encodes as `earliest`,
not as the original bytes `0x0` — the round-trip of the claim fails. -/
theorem C9_counterexample_zero_quantity :
    isCanonicalHexQuantity ['0', 'x', '0'] = true ∧
    blockNumberUnmarshalJSON ['0', 'x', '0'] = some EarliestBlockNumber ∧
    blockNumberMarshalText EarliestBlockNumber =
      ['e', 'a', 'r', 'l', 'i', 'e', 's', 't'] ∧
    blockNumberMarshalText EarliestBlockNumber ≠ ['0', 'x', '0'] := by
  refine ⟨by decide, by decide, by decide, by decide⟩

/-- C9 amended: decoding the tags latest / pending / earliest yields the
corresponding sentinel values, which re-encode byte-identically; and every
canonical hex quantity other than `0x0` that decodes successfully re-encodes
byte-identically.  (`0x0` decodes to the earliest sentinel and re-encodes as
`earliest`.) -/
theorem C9_blocknumber_roundtrip :
    (blockNumberUnmarshalJSON ['l', 'a', 't', 'e', 's', 't'] = some LatestBlockNumber ∧
     blockNumberMarshalText LatestBlockNumber = ['l', 'a', 't', 'e', 's', 't'] ∧
     blockNumberUnmarshalJSON ['p', 'e', 'n', 'd', 'i', 'n', 'g'] = some PendingBlockNumber ∧
     blockNumberMarshalText PendingBlockNumber = ['p', 'e', 'n', 'd', 'i', 'n', 'g'] ∧
     blockNumberUnmarshalJSON ['e', 'a', 'r', 'l', 'i', 'e', 's', 't'] = some EarliestBlockNumber ∧
     blockNumberMarshalText EarliestBlockNumber = ['e', 'a', 'r', 'l', 'i', 'e', 's', 't']) ∧
    (∀ s v, isCanonicalHexQuantity s = true → s ≠ ['0', 'x', '0'] →
      blockNumberUnmarshalJSON s = some v → blockNumberMarshalText v = s) := by
  refine ⟨by decide, ?_⟩
  intro s v hcan hs hdec
  rcases s with _ | ⟨a, s1⟩
  · simp [isCanonicalHexQuantity] at hcan
  rcases s1 with _ | ⟨b, rest⟩
  · simp [isCanonicalHexQuantity] at hcan
  simp only [isCanonicalHexQuantity, List.head?_cons, List.drop_succ_cons,
    List.drop_zero, Bool.and_eq_true, Bool.or_eq_true, beq_iff_eq,
    bne_iff_ne, Bool.not_eq_true', Option.some_inj, List.all_eq_true,
    List.isEmpty_eq_false, ne_eq, beq_eq_false_iff_ne] at hcan
  obtain ⟨⟨⟨⟨ha, hb⟩, hrestne⟩, hallP⟩, hlead⟩ := hcan
  subst ha
  subst hb
  have hz : rest ≠ ['0'] := fun hcon => hs (by rw [hcon])
  have hlead2 : rest.length = 1 ∨ rest.head? ≠ some '0' := by
    rcases hlead with h1 | h2
    · exact Or.inl h1
    · exact Or.inr h2
  obtain ⟨n, hparse, hnz, hhex⟩ :=
    canonical_digits_roundtrip rest hrestne hallP hlead2 hz
  have hws : ∀ c ∈ ('0' :: 'x' :: rest), c.isWhitespace = false := by
    intro c hc
    rcases List.mem_cons.mp hc with rfl | hc2
    · decide
    rcases List.mem_cons.mp hc2 with rfl | hc3
    · decide
    exact lowerHex_not_ws c (hallP c hc3)
  have htrim := trimSpaceChars_id _ hws
  have hchk : checkNumber ('0' :: 'x' :: rest) = some rest := by
    unfold checkNumber
    rw [if_neg (by simp), if_neg (by simp [hasPre0x])]
    have hdrop : ('0' :: 'x' :: rest).drop 2 = rest := rfl
    rw [hdrop]
    rw [if_neg (by simp [List.isEmpty_iff, hrestne])]
    rw [if_neg ?_]
    rintro ⟨hlen, hhd⟩
    rcases hlead2 with h1 | h2
    · omega
    · exact h2 hhd
  have hqc : ¬(2 ≤ ('0' :: 'x' :: rest).length ∧
      ('0' :: 'x' :: rest).head? = some '"' ∧
      ('0' :: 'x' :: rest).getLast? = some '"') := by
    rintro ⟨-, hq, -⟩
    rw [List.head?_cons] at hq
    injection hq with hq2
    exact absurd hq2 (by decide)
  have ht1 : ('0' :: 'x' :: rest) ≠ ['e', 'a', 'r', 'l', 'i', 'e', 's', 't'] := by
    intro hcon
    injection hcon with h1 _
    exact absurd h1 (by decide)
  have ht2 : ('0' :: 'x' :: rest) ≠ ['l', 'a', 't', 'e', 's', 't'] := by
    intro hcon
    injection hcon with h1 _
    exact absurd h1 (by decide)
  have ht3 : ('0' :: 'x' :: rest) ≠ ['p', 'e', 'n', 'd', 'i', 'n', 'g'] := by
    intro hcon
    injection hcon with h1 _
    exact absurd h1 (by decide)
  have ht4 : ('0' :: 'x' :: rest) ≠ ['f', 'i', 'n', 'a', 'l', 'i', 'z', 'e', 'd'] := by
    intro hcon
    injection hcon with h1 _
    exact absurd h1 (by decide)
  have ht5 : ('0' :: 'x' :: rest) ≠ ['s', 'a', 'f', 'e'] := by
    intro hcon
    injection hcon with h1 _
    exact absurd h1 (by decide)
  have e1 : blockNumberUnmarshalJSON ('0' :: 'x' :: rest) =
      (match decodeUint64 ('0' :: 'x' :: rest) with
       | none => none
       | some m => if maxInt64 < m then none else some (m : Int)) := by
    simp only [blockNumberUnmarshalJSON]
    rw [htrim]
    rw [if_neg hqc]
    rw [if_neg ht1, if_neg ht2, if_neg ht3, if_neg ht4, if_neg ht5]
  have e2 : decodeUint64 ('0' :: 'x' :: rest) = parseUintHex64 rest := by
    unfold decodeUint64
    rw [hchk]
  have e3 : parseUintHex64 rest = if n < 2 ^ 64 then some n else none := by
    rw [parseUintHex64_ne_nil rest hrestne, hparse]
  rw [e1, e2, e3] at hdec
  by_cases h64 : n < 2 ^ 64
  · rw [if_pos h64] at hdec
    have hdec2 : (if maxInt64 < n then none else some ((n : Int))) = some v :=
      hdec
    by_cases hmx : maxInt64 < n
    · rw [if_pos hmx] at hdec2
      exact absurd hdec2 (by simp)
    · rw [if_neg hmx] at hdec2
      obtain rfl : (n : Int) = v := Option.some_inj.mp hdec2
      have hc1 : ¬((n : Int) = EarliestBlockNumber) := by
        rw [show EarliestBlockNumber = (0 : Int) from rfl]
        omega
      have hc2 : ¬((n : Int) = LatestBlockNumber) := by
        rw [show LatestBlockNumber = (-1 : Int) from rfl]
        omega
      have hc3 : ¬((n : Int) = PendingBlockNumber) := by
        rw [show PendingBlockNumber = (-2 : Int) from rfl]
        omega
      have hc4 : ¬((n : Int) = FinalizedBlockNumber) := by
        rw [show FinalizedBlockNumber = (-3 : Int) from rfl]
        omega
      have hc5 : ¬((n : Int) = SafeBlockNumber) := by
        rw [show SafeBlockNumber = (-4 : Int) from rfl]
        omega
      unfold blockNumberMarshalText
      rw [if_neg hc1, if_neg hc2, if_neg hc3, if_neg hc4, if_neg hc5]
      have hmod : ((n : Int)) % ((2 : Int) ^ 64) = (n : Int) := by
        apply Int.emod_eq_of_lt
        · exact_mod_cast Nat.zero_le n
        · exact_mod_cast h64
      rw [hmod]
      show hexUint64MarshalText n = '0' :: 'x' :: rest
      unfold hexUint64MarshalText
      rw [hhex]
  · rw [if_neg h64] at hdec
    exact absurd hdec (by simp)

/-- C9 witness: the general round-trip statement discharged at the concrete
canonical quantity `0x1a`. -/
theorem C9_blocknumber_roundtrip_witness :
    isCanonicalHexQuantity ['0', 'x', '1', 'a'] = true ∧
    ['0', 'x', '1', 'a'] ≠ ['0', 'x', '0'] ∧
    blockNumberUnmarshalJSON ['0', 'x', '1', 'a'] = some 26 ∧
    blockNumberMarshalText 26 = ['0', 'x', '1', 'a'] :=
  ⟨by decide, by decide, by decide,
    C9_blocknumber_roundtrip.2 ['0', 'x', '1', 'a'] 26 (by decide) (by decide)
      (by decide)⟩

/-- The flush loop writes the whole buffer when every write succeeds. -/
theorem flushLoop_all_ok (ps : List String) : ∀ (ok : Nat → Bool) (i : Nat),
    (∀ j, j < ps.length → ok (i + j) = true) →
    flushLoop ps ok i = (ps, none) := by
  induction ps with
  | nil => intro ok i _; rfl
  | cons p ps ih =>
    intro ok i h
    have h0 : ok i = true := by simpa using h 0 (by simp)
    simp only [flushLoop, h0, if_true]
    rw [ih ok (i + 1) ?_]
    intro j hj
    have hx := h (j + 1) (by simpa using Nat.succ_lt_succ hj)
    have harith : i + (j + 1) = i + 1 + j := by omega
    rw [harith] at hx
    exact hx

/-- Whatever happens, the flush loop writes a prefix of the buffer (the
buffered payloads go out in submission order). -/
theorem flushLoop_writes_take (ps : List String) : ∀ (ok : Nat → Bool) (i : Nat),
    ∃ k, (flushLoop ps ok i).1 = ps.take k := by
  induction ps with
  | nil => intro ok i; exact ⟨0, rfl⟩
  | cons p ps ih =>
    intro ok i
    by_cases h : ok i = true
    · simp only [flushLoop, h, if_true]
      obtain ⟨k, hk⟩ := ih ok (i + 1)
      exact ⟨k + 1, by simp [hk]⟩
    · simp only [flushLoop, h, if_false]
      exact ⟨0, rfl⟩

/-- A pre-activation Notify run buffers everything and writes nothing. -/
theorem runNotifies_buffered (datas : List String) :
    ∀ (n : NotifierState) (id : String), n.subid = some id →
    n.activated = false →
    runNotifies n id datas = .ok ({ n with buffer := n.buffer ++ datas }, []) := by
  induction datas with
  | nil =>
    intro n id _ _
    simp [runNotifies]
  | cons d ds ih =>
    intro n id h1 h2
    have hstep : notifierNotify n id (some d) true =
        .ok ({ n with buffer := n.buffer ++ [d] }, [], none) := by
      simp [notifierNotify, h1, h2]
    unfold runNotifies
    simp only [hstep]
    rw [ih { n with buffer := n.buffer ++ [d] } id h1 h2]
    simp [List.append_assoc]

/-- C2: before activation Notify appends the encoded payload to the buffer
and writes nothing; activate with all writes succeeding writes the buffer in
submission order and only then sets the activated flag; a failed write makes
activate return the error with the state (hence the flag) unchanged, having
written only a prefix of the buffer; and any sequence of pre-activation
Notify calls writes nothing at all. -/
theorem C2_notifier_activation_barrier :
    (∀ (n : NotifierState) (id enc : String), n.subid = some id →
      n.activated = false →
      notifierNotify n id (some enc) true =
        .ok ({ n with buffer := n.buffer ++ [enc] }, [], none)) ∧
    (∀ (n : NotifierState) (ok : Nat → Bool),
      (∀ i, i < n.buffer.length → ok i = true) →
      notifierActivate n ok = ({ n with activated := true }, n.buffer, none)) ∧
    (∀ (n : NotifierState) (ok : Nat → Bool) (e : NotifyErr),
      (notifierActivate n ok).2.2 = some e →
      (notifierActivate n ok).1 = n ∧
      ∃ k, (notifierActivate n ok).2.1 = n.buffer.take k) ∧
    (∀ (n : NotifierState) (id : String) (datas : List String),
      n.subid = some id → n.activated = false →
      runNotifies n id datas =
        .ok ({ n with buffer := n.buffer ++ datas }, [])) := by
  refine ⟨?_, ?_, ?_, ?_⟩
  · intro n id enc h1 h2
    simp [notifierNotify, h1, h2]
  · intro n ok h
    unfold notifierActivate
    rw [flushLoop_all_ok n.buffer ok 0 (fun j hj => by simpa using h j hj)]
  · intro n ok e herr
    simp only [notifierActivate] at herr ⊢
    obtain ⟨k, hk⟩ := flushLoop_writes_take n.buffer ok 0
    cases hfl : (flushLoop n.buffer ok 0).2 with
    | none =>
      simp only [hfl] at herr
      simp at herr
    | some e2 =>
      simp only [hfl] at herr ⊢
      exact ⟨by trivial, k, hk⟩
  · intro n id datas h1 h2
    exact runNotifies_buffered datas n id h1 h2

/-- C2 witness: the four parts of the activation-barrier theorem discharged
on a concrete notifier with a two-element buffer. -/
theorem C2_notifier_activation_barrier_witness :
    ((⟨some "0x1", ["a"], false, false⟩ : NotifierState).subid = some "0x1" ∧
     (⟨some "0x1", ["a"], false, false⟩ : NotifierState).activated = false ∧
     notifierNotify ⟨some "0x1", ["a"], false, false⟩ "0x1" (some "b") true =
       .ok (⟨some "0x1", ["a", "b"], false, false⟩, [], none)) ∧
    ((∀ i, i < (⟨some "0x1", ["a", "b"], false, false⟩ :
        NotifierState).buffer.length → (fun _ => true) i = true) ∧
     notifierActivate ⟨some "0x1", ["a", "b"], false, false⟩ (fun _ => true) =
       (⟨some "0x1", ["a", "b"], false, true⟩, ["a", "b"], none)) ∧
    ((notifierActivate ⟨some "0x1", ["a", "b"], false, false⟩
        (fun _ => false)).2.2 = some .writeErr ∧
     (notifierActivate ⟨some "0x1", ["a", "b"], false, false⟩
        (fun _ => false)).1 = ⟨some "0x1", ["a", "b"], false, false⟩ ∧
     ∃ k, (notifierActivate ⟨some "0x1", ["a", "b"], false, false⟩
        (fun _ => false)).2.1 = (["a", "b"] : List String).take k) ∧
    runNotifies ⟨some "0x1", [], false, false⟩ "0x1" ["a", "b"] =
      .ok (⟨some "0x1", ["a", "b"], false, false⟩, []) :=
  ⟨⟨rfl, rfl,
    C2_notifier_activation_barrier.1 ⟨some "0x1", ["a"], false, false⟩
      "0x1" "b" rfl rfl⟩,
   ⟨fun i _ => rfl,
    C2_notifier_activation_barrier.2.1 ⟨some "0x1", ["a", "b"], false, false⟩
      (fun _ => true) (fun i _ => rfl)⟩,
   ⟨by decide,
    (C2_notifier_activation_barrier.2.2.1 ⟨some "0x1", ["a", "b"], false, false⟩
      (fun _ => false) .writeErr (by decide)).1,
    (C2_notifier_activation_barrier.2.2.1 ⟨some "0x1", ["a", "b"], false, false⟩
      (fun _ => false) .writeErr (by decide)).2⟩,
   C2_notifier_activation_barrier.2.2.2 ⟨some "0x1", [], false, false⟩
     "0x1" ["a", "b"] rfl rfl⟩

/-- Iterating Unsubscribe beyond the first call is the first call. -/
theorem unsubIter_fix : ∀ k,
    unsubIter newClientSubUnsub (k + 1) = unsubIter newClientSubUnsub 1 := by
  intro k
  induction k with
  | zero => rfl
  | succ k ih =>
    show (clientSubUnsubscribe (unsubIter newClientSubUnsub (k + 1))).1 = _
    rw [ih]
    rfl

/-- C5: Unsubscribe is idempotent.  The first call signals the forwarding
task, waits for its confirmation, then closes the error channel; any number
of further calls leaves the state unchanged and performs no effects; the
error channel ends up closed with close having run exactly once; and a
subsequent read observes a closed channel with no value. -/
theorem C5_unsubscribe_idempotent :
    (clientSubUnsubscribe newClientSubUnsub).2 =
      [UnsubEffect.signalQuit, UnsubEffect.waitUnsubDone,
        UnsubEffect.closeErrChan] ∧
    (∀ k, unsubIter newClientSubUnsub (k + 1) = unsubIter newClientSubUnsub 1) ∧
    (∀ k, (unsubIter newClientSubUnsub (k + 1)).errChan.closeCount = 1 ∧
      (unsubIter newClientSubUnsub (k + 1)).errChan.closed = true) ∧
    (∀ k, clientSubUnsubscribe (unsubIter newClientSubUnsub (k + 1)) =
      (unsubIter newClientSubUnsub (k + 1), [])) ∧
    readErrChan (unsubIter newClientSubUnsub 1).errChan =
      ErrChanRead.closedNoValue := by
  refine ⟨rfl, unsubIter_fix, ?_, ?_, rfl⟩
  · intro k
    rw [unsubIter_fix k]
    exact ⟨rfl, rfl⟩
  · intro k
    rw [unsubIter_fix k]
    rfl

/-- The forwarding buffer never exceeds the cap. -/
theorem forwardRun_bufLen (steps : List FwdStep) : ∀ (buf dlv : List Nat),
    buf.length ≤ maxClientSubscriptionBuffer →
    (forwardRun steps buf dlv).bufLen ≤ maxClientSubscriptionBuffer := by
  induction steps with
  | nil => intro buf dlv h; exact h
  | cons s rest ih =>
    intro buf dlv h
    cases s with
    | quitSig e =>
      simp only [forwardRun]
      by_cases he : e = some .unsubscribed
      · rw [if_pos he]; exact h
      · rw [if_neg he]; exact h
    | incoming v =>
      cases v with
      | none => exact h
      | some x =>
        simp only [forwardRun]
        by_cases hb : buf.length = maxClientSubscriptionBuffer
        · rw [if_pos hb]; exact h
        · rw [if_neg hb]
          apply ih
          simp only [List.length_append, List.length_cons, List.length_nil]
          omega
    | sinkReady =>
      simp only [forwardRun]
      cases buf with
      | nil => exact ih [] dlv (by simp)
      | cons x xs =>
        apply ih
        simp only [List.length_cons] at h
        omega

/-- With the sink never draining and only events arriving, the loop buffers
the first cap-many events, then terminates with the overflow error
requesting a server-side unsubscribe, delivering nothing. -/
theorem forwardRun_only_incoming (events : List Nat) : ∀ (buf dlv : List Nat),
    buf.length ≤ maxClientSubscriptionBuffer →
    maxClientSubscriptionBuffer < buf.length + events.length →
    forwardRun (events.map fun v => FwdStep.incoming (some v)) buf dlv =
      .terminated true (some .queueOverflow)
        (buf ++ events.take (maxClientSubscriptionBuffer - buf.length)) dlv := by
  induction events with
  | nil =>
    intro buf dlv h1 h2
    simp only [List.length_nil] at h2
    omega
  | cons v es ih =>
    intro buf dlv h1 h2
    simp only [List.map_cons, forwardRun]
    by_cases hb : buf.length = maxClientSubscriptionBuffer
    · rw [if_pos hb, hb]
      simp
    · rw [if_neg hb]
      have hlt : buf.length < maxClientSubscriptionBuffer :=
        lt_of_le_of_ne h1 hb
      rw [ih (buf ++ [v]) dlv
        (by simp only [List.length_append, List.length_cons, List.length_nil]; omega)
        (by simp only [List.length_append, List.length_cons, List.length_nil] at h2 ⊢; omega)]
      simp only [List.length_append, List.length_cons, List.length_nil]
      rw [show maxClientSubscriptionBuffer - buf.length =
        (maxClientSubscriptionBuffer - (buf.length + (0 + 1))) + 1 from by omega]
      rw [List.take_succ_cons]
      simp [List.append_assoc]

/-- C4: starting below the cap the forwarding buffer never exceeds 20000
elements; when only events arrive (the sink never drains) and more than
20000 arrive, the loop terminates with the subscription-queue-overflow
error, having buffered exactly the first 20000 events and delivered none
beyond them; and the run task then closes forwardDone, issues the
server-side unsubscribe, and delivers the overflow error on the error
channel. -/
theorem C4_forward_overflow :
    (∀ (steps : List FwdStep) (buf dlv : List Nat),
      buf.length ≤ maxClientSubscriptionBuffer →
      (forwardRun steps buf dlv).bufLen ≤ maxClientSubscriptionBuffer) ∧
    (∀ events : List Nat, maxClientSubscriptionBuffer < events.length →
      forwardRun (events.map fun v => FwdStep.incoming (some v)) [] [] =
        .terminated true (some .queueOverflow)
          (events.take maxClientSubscriptionBuffer) []) ∧
    runAfterForward true (some .queueOverflow) =
      [.closeForwardDone, .requestUnsubscribe,
        .deliverErr (some .queueOverflow)] := by
  refine ⟨fun steps buf dlv h => forwardRun_bufLen steps buf dlv h, ?_, rfl⟩
  intro events h
  have hx := forwardRun_only_incoming events [] [] (by simp) (by simpa using h)
  simpa using hx

/-- C4 witness: the cap invariant at the empty schedule and the overflow
scenario at 20001 injected events. -/
theorem C4_forward_overflow_witness :
    (([] : List Nat).length ≤ maxClientSubscriptionBuffer ∧
      (forwardRun [] [] []).bufLen ≤ maxClientSubscriptionBuffer) ∧
    (maxClientSubscriptionBuffer < (List.replicate 20001 (0 : Nat)).length ∧
      forwardRun ((List.replicate 20001 (0 : Nat)).map
          fun v => FwdStep.incoming (some v)) [] [] =
        .terminated true (some .queueOverflow)
          ((List.replicate 20001 (0 : Nat)).take maxClientSubscriptionBuffer)
          []) :=
  ⟨⟨by decide, C4_forward_overflow.1 [] [] [] (by decide)⟩,
   ⟨by rw [List.length_replicate]; norm_num [maxClientSubscriptionBuffer],
    C4_forward_overflow.2.1 _
      (by rw [List.length_replicate]; norm_num [maxClientSubscriptionBuffer])⟩⟩

/-- C1 (code-bug evidence): on a subscribe response whose result decodes
into a subscription id the handler neither starts the forwarding task nor
registers the subscription (delivering a nil error to the caller), while on
a response whose result fails to decode it starts the task and registers the
subscription under the stale zero-value id — the inverse of the behaviour
the spec (and the function's own comment) describe, caused by the
`op.err != nil` test on the unmarshal outcome and the missing return in the
`msg.Error != nil` branch. -/
theorem C1_handleResponse_inverted :
    unmarshalJSONString subscribeRespMsg.result = some "0xabc" ∧
    (handleResponse pendingSubSt subscribeRespMsg).runStarted = false ∧
    (handleResponse pendingSubSt subscribeRespMsg).registeredUnder = none ∧
    (handleResponse pendingSubSt subscribeRespMsg).state.clientSubs = [] ∧
    (handleResponse pendingSubSt subscribeRespMsg).respClosed = true ∧
    (handleResponse pendingSubSt subscribeRespMsg).opErr = none ∧
    unmarshalJSONString badSubscribeRespMsg.result = none ∧
    (handleResponse pendingSubSt badSubscribeRespMsg).runStarted = true ∧
    (handleResponse pendingSubSt badSubscribeRespMsg).registeredUnder = some "" ∧
    (handleResponse pendingSubSt badSubscribeRespMsg).opErr =
      some C1Err.decodeErr := by
  decide

/-- The didClose-guarded request loop closes an op exactly once when it is
pending and not yet closed, and never otherwise. -/
theorem cancelRequestsLoop_count (reason : String) (l : List (String × Nat)) :
    ∀ (did : List Nat) (t : Nat),
    (cancelRequestsLoop reason l did).count (.closeRequest t reason) =
      if t ∈ l.map Prod.snd ∧ t ∉ did then 1 else 0 := by
  induction l with
  | nil =>
    intro did t
    simp [cancelRequestsLoop]
  | cons p rest ih =>
    intro did t
    obtain ⟨id, op⟩ := p
    simp only [cancelRequestsLoop]
    by_cases hop : op ∈ did
    · rw [if_pos hop, ih did t]
      have hiff : (t ∈ ((id, op) :: rest).map Prod.snd ∧ t ∉ did) ↔
          (t ∈ rest.map Prod.snd ∧ t ∉ did) := by
        by_cases ht : t = op
        · subst ht
          constructor
          · rintro ⟨-, hnd⟩
            exact absurd hop hnd
          · rintro ⟨-, hnd⟩
            exact absurd hop hnd
        · simp [List.map_cons, List.mem_cons, ht]
      rw [if_congr hiff.symm rfl rfl]
    · rw [if_neg hop]
      rw [List.count_cons, ih (op :: did) t]
      by_cases ht : t = op
      · subst ht
        simp [List.map_cons, List.mem_cons, hop]
      · have hbeq : (CloseEvent.closeRequest op reason ==
            CloseEvent.closeRequest t reason) = false := by
          simp [Ne.symm ht]
        rw [hbeq]
        simp only [Bool.false_eq_true, if_false, Nat.add_zero]
        have hiff : (t ∈ rest.map Prod.snd ∧ t ∉ op :: did) ↔
            (t ∈ ((id, op) :: rest).map Prod.snd ∧ t ∉ did) := by
          simp [List.map_cons, List.mem_cons, ht]
        rw [if_congr hiff rfl rfl]

/-- C3 counterexample: in the trace of `handler.close` on a state with one
pending request, one client subscription and one server subscription, the
wait for in-flight tasks happens strictly before the root-context
cancellation — the claim states the opposite order. -/
theorem C3_counterexample_close_order :
    CloseEvent.waitCalls ∈ handlerCloseTrace c3SampleState "conn closed" none ∧
    CloseEvent.cancelRoot ∈ handlerCloseTrace c3SampleState "conn closed" none ∧
    (handlerCloseTrace c3SampleState "conn closed" none).indexOf
        CloseEvent.waitCalls <
      (handlerCloseTrace c3SampleState "conn closed" none).indexOf
        CloseEvent.cancelRoot := by
  decide

/-- C3 amended: `handler.close` closes every pending non-exempt request
exactly once (delivering the reason), never touches the exempted one, closes
every client subscription with the reason, delivers the reason to and closes
every server subscription's error slot, and runs in the order: cancel
requests and client subscriptions, wait for in-flight tasks, cancel the root
context, then terminate server subscriptions. -/
theorem C3_close_semantics (st : CloseState) (reason : String)
    (exempt : Option Nat) :
    (∀ t, t ∈ st.respWait.map Prod.snd → some t ≠ exempt →
      (handlerCloseTrace st reason exempt).count (.closeRequest t reason) = 1) ∧
    (∀ t, some t = exempt →
      (handlerCloseTrace st reason exempt).count (.closeRequest t reason) = 0) ∧
    (∀ p ∈ st.clientSubs,
      CloseEvent.closeClientSub p.2 reason ∈ handlerCloseTrace st reason exempt) ∧
    (∀ p ∈ st.serverSubs,
      CloseEvent.serverSubDeliver p.1 reason ∈ handlerCloseTrace st reason exempt ∧
      CloseEvent.serverSubClose p.1 ∈ handlerCloseTrace st reason exempt) ∧
    handlerCloseTrace st reason exempt =
      cancelRequestsLoop reason st.respWait
          (match exempt with | some t => [t] | none => []) ++
        st.clientSubs.map (fun p => .closeClientSub p.2 reason) ++
        ([.waitCalls] ++ ([.cancelRoot] ++
          st.serverSubs.flatMap
            (fun p => [.serverSubDeliver p.1 reason, .serverSubClose p.1]))) := by
  have hcount0 : ∀ t,
      (st.clientSubs.map fun p => CloseEvent.closeClientSub p.2 reason).count
        (.closeRequest t reason) = 0 := by
    intro t
    rw [List.count_eq_zero]
    intro hmem
    simp [List.mem_map] at hmem
  have hcount1 : ∀ t,
      (st.serverSubs.flatMap fun p =>
        [CloseEvent.serverSubDeliver p.1 reason,
         CloseEvent.serverSubClose p.1]).count (.closeRequest t reason) = 0 := by
    intro t
    rw [List.count_eq_zero]
    intro hmem
    simp [List.mem_flatMap] at hmem
  refine ⟨?_, ?_, ?_, ?_, ?_⟩
  · intro t hmem hex
    unfold handlerCloseTrace cancelAllRequests cancelServerSubscriptions
    simp only [List.count_append]
    rw [cancelRequestsLoop_count, hcount0 t, hcount1 t]
    have hnotin : t ∉ (match exempt with | some t => [t] | none => []) := by
      cases exempt with
      | none => simp
      | some u =>
        simp only [List.mem_singleton]
        intro hcon
        exact hex (by rw [hcon])
    rw [if_pos ⟨hmem, hnotin⟩]
    simp [List.count_cons, List.count_nil]
  · intro t hex
    unfold handlerCloseTrace cancelAllRequests cancelServerSubscriptions
    simp only [List.count_append]
    rw [cancelRequestsLoop_count, hcount0 t, hcount1 t]
    have hin : t ∈ (match exempt with | some t => [t] | none => []) := by
      cases exempt with
      | none => cases hex
      | some u =>
        simp only [List.mem_singleton]
        exact Option.some_inj.mp hex
    rw [if_neg (by intro hcon; exact hcon.2 hin)]
    simp [List.count_cons, List.count_nil]
  · intro p hp
    unfold handlerCloseTrace cancelAllRequests
    simp only [List.mem_append]
    exact Or.inl (Or.inl (Or.inl (Or.inr (List.mem_map.mpr ⟨p, hp, rfl⟩))))
  · intro p hp
    unfold handlerCloseTrace cancelAllRequests cancelServerSubscriptions
    constructor
    · simp only [List.mem_append]
      exact Or.inr (List.mem_flatMap.mpr ⟨p, hp, by simp⟩)
    · simp only [List.mem_append]
      exact Or.inr (List.mem_flatMap.mpr ⟨p, hp, by simp⟩)
  · unfold handlerCloseTrace cancelAllRequests cancelServerSubscriptions
    simp [List.append_assoc]

/-- C3 witness: the close-semantics theorem discharged at the sample state,
with and without an exempted request. -/
theorem C3_close_semantics_witness :
    (1 ∈ c3SampleState.respWait.map Prod.snd ∧ some 1 ≠ (none : Option Nat) ∧
      (handlerCloseTrace c3SampleState "err" none).count
        (.closeRequest 1 "err") = 1) ∧
    (some 1 = some 1 ∧
      (handlerCloseTrace c3SampleState "err" (some 1)).count
        (.closeRequest 1 "err") = 0) ∧
    (("s", 2) ∈ c3SampleState.clientSubs ∧
      CloseEvent.closeClientSub 2 "err" ∈
        handlerCloseTrace c3SampleState "err" none) ∧
    (("a", 3) ∈ c3SampleState.serverSubs ∧
      CloseEvent.serverSubDeliver "a" "err" ∈
        handlerCloseTrace c3SampleState "err" none ∧
      CloseEvent.serverSubClose "a" ∈
        handlerCloseTrace c3SampleState "err" none) :=
  ⟨⟨by decide, by decide,
    (C3_close_semantics c3SampleState "err" none).1 1 (by decide) (by decide)⟩,
   ⟨rfl,
    (C3_close_semantics c3SampleState "err" (some 1)).2.1 1 rfl⟩,
   ⟨by decide,
    (C3_close_semantics c3SampleState "err" none).2.2.1 ("s", 2) (by decide)⟩,
   ⟨by decide,
    (C3_close_semantics c3SampleState "err" none).2.2.2.1 ("a", 3) (by decide)⟩⟩

/-- Assignment makes the key present with the assigned value. -/
theorem lookupA_insertA_self {β : Type} (l : List (String × β)) (k : String)
    (v : β) : lookupA (insertA l k v) k = some v := by
  unfold insertA
  induction l with
  | nil => simp [eraseA, lookupA]
  | cons p rest ih =>
    obtain ⟨k2, v2⟩ := p
    by_cases h : (k2 == k) = true
    · simpa [eraseA, h] using ih
    · simp only [eraseA, h, if_false]
      simpa [lookupA, h] using ih

/-- Assignment leaves other keys untouched. -/
theorem lookupA_insertA_ne {β : Type} (l : List (String × β)) (k key2 : String)
    (v : β) (h : key2 ≠ k) : lookupA (insertA l k v) key2 = lookupA l key2 := by
  unfold insertA
  induction l with
  | nil =>
    have hb : (k == key2) = false := by
      simp [Ne.symm h]
    simp [eraseA, lookupA, hb]
  | cons p rest ih =>
    obtain ⟨k2, v2⟩ := p
    by_cases hk : (k2 == k) = true
    · have hk2 : k2 = key2 → False := by
        intro hcon
        exact h (by rw [← hcon]; exact (beq_iff_eq.mp hk).symm ▸ rfl)
      have hb : (k2 == key2) = false := by
        rw [beq_eq_false_iff_ne]
        intro hcon
        exact hk2 hcon
      simp only [eraseA, hk, if_true, lookupA, hb, Bool.false_eq_true, if_false]
      exact ih
    · simp only [eraseA, hk, if_false, List.cons_append, lookupA]
      by_cases hb : (k2 == key2) = true
      · simp [hb]
      · simp only [hb, Bool.false_eq_true, if_false]
        exact ih

/-- The merge loop does not disturb names it does not register. -/
theorem foldRegister_notin (new : List (String × callback)) :
    ∀ (svc : service) (m : String), m ∉ new.map Prod.fst →
    lookupA (new.foldl registerStep svc).callbacks m =
      lookupA svc.callbacks m ∧
    lookupA (new.foldl registerStep svc).subscriptions m =
      lookupA svc.subscriptions m := by
  induction new with
  | nil => intro svc m _; exact ⟨rfl, rfl⟩
  | cons p ps ih =>
    intro svc m h
    simp only [List.map_cons, List.mem_cons] at h
    push_neg at h
    obtain ⟨h1, h2⟩ := h
    simp only [List.foldl_cons]
    have hstep : lookupA (registerStep svc p).callbacks m =
        lookupA svc.callbacks m ∧
        lookupA (registerStep svc p).subscriptions m =
        lookupA svc.subscriptions m := by
      unfold registerStep
      by_cases hsub : p.2.isSubscribe = true
      · rw [if_pos hsub]
        exact ⟨rfl, lookupA_insertA_ne _ _ _ _ h1⟩
      · rw [if_neg hsub]
        exact ⟨lookupA_insertA_ne _ _ _ _ h1, rfl⟩
    obtain ⟨ha, hb⟩ := ih (registerStep svc p) m h2
    exact ⟨ha.trans hstep.1, hb.trans hstep.2⟩

/-- After the merge loop every registered name is present, in the callback
map or in the subscription map. -/
theorem foldRegister_present (new : List (String × callback)) :
    ∀ (svc : service) (m : String),
    (lookupA svc.callbacks m ≠ none ∨ lookupA svc.subscriptions m ≠ none) ∨
      m ∈ new.map Prod.fst →
    lookupA (new.foldl registerStep svc).callbacks m ≠ none ∨
      lookupA (new.foldl registerStep svc).subscriptions m ≠ none := by
  induction new with
  | nil =>
    intro svc m h
    rcases h with h | h
    · exact h
    · simp at h
  | cons p ps ih =>
    intro svc m h
    simp only [List.foldl_cons]
    apply ih
    have hstep : (lookupA svc.callbacks m ≠ none ∨
        lookupA svc.subscriptions m ≠ none) ∨ m = p.1 →
        lookupA (registerStep svc p).callbacks m ≠ none ∨
        lookupA (registerStep svc p).subscriptions m ≠ none := by
      intro hx
      unfold registerStep
      by_cases hk : m = p.1
      · subst hk
        by_cases hsub : p.2.isSubscribe = true
        · rw [if_pos hsub]
          right
          rw [lookupA_insertA_self]
          simp
        · rw [if_neg hsub]
          left
          rw [lookupA_insertA_self]
          simp
      · rcases hx with hP | hcon
        · by_cases hsub : p.2.isSubscribe = true
          · rw [if_pos hsub]
            rcases hP with hc | hs
            · exact Or.inl hc
            · right
              rw [lookupA_insertA_ne _ _ _ _ hk]
              exact hs
          · rw [if_neg hsub]
            rcases hP with hc | hs
            · left
              rw [lookupA_insertA_ne _ _ _ _ hk]
              exact hc
            · exact Or.inr hs
        · exact absurd hcon hk
    rcases h with hP | hm
    · exact Or.inl (hstep (Or.inl hP))
    · simp only [List.map_cons, List.mem_cons] at hm
      rcases hm with hm | hm
      · exact Or.inl (hstep (Or.inr hm))
      · exact Or.inr hm

/-- C8: registerName rejects an empty namespace; rejects a receiver with no
qualifying callbacks; on re-registration under an existing namespace it
merges the new callbacks into the existing service (names not being
re-registered keep their previous entries, and every newly registered name
becomes present in the callback or subscription map); and first-time
registration of a fresh namespace succeeds, installing the new callbacks
into a fresh service. -/
theorem C8_registerName_contract :
    (∀ (services : List (String × service)) (rcvr : List GoMethod),
      registryRegisterName services "" rcvr = .error "no service name") ∧
    (∀ (services : List (String × service)) (name : String)
        (rcvr : List GoMethod), name ≠ "" → suitableCallbacks rcvr = [] →
      registryRegisterName services name rcvr = .error "no suitable methods") ∧
    (∀ (services : List (String × service)) (name : String)
        (rcvr : List GoMethod) (svcOld : service), name ≠ "" →
      lookupA services name = some svcOld →
      suitableCallbacks rcvr ≠ [] →
      registryRegisterName services name rcvr =
        .ok (insertA services name
          ((suitableCallbacks rcvr).foldl registerStep svcOld)) ∧
      (∀ m, m ∉ (suitableCallbacks rcvr).map Prod.fst →
        lookupA ((suitableCallbacks rcvr).foldl registerStep svcOld).callbacks m =
          lookupA svcOld.callbacks m ∧
        lookupA ((suitableCallbacks rcvr).foldl registerStep
            svcOld).subscriptions m =
          lookupA svcOld.subscriptions m) ∧
      (∀ m, m ∈ (suitableCallbacks rcvr).map Prod.fst →
        lookupA ((suitableCallbacks rcvr).foldl registerStep
            svcOld).callbacks m ≠ none ∨
        lookupA ((suitableCallbacks rcvr).foldl registerStep
            svcOld).subscriptions m ≠ none)) ∧
    (∀ (services : List (String × service)) (name : String)
        (rcvr : List GoMethod), name ≠ "" →
      lookupA services name = none →
      suitableCallbacks rcvr ≠ [] →
      registryRegisterName services name rcvr =
        .ok (insertA services name
          ((suitableCallbacks rcvr).foldl registerStep ⟨name, [], []⟩)) ∧
      (∀ m, m ∈ (suitableCallbacks rcvr).map Prod.fst →
        lookupA ((suitableCallbacks rcvr).foldl registerStep
            (⟨name, [], []⟩ : service)).callbacks m ≠ none ∨
        lookupA ((suitableCallbacks rcvr).foldl registerStep
            (⟨name, [], []⟩ : service)).subscriptions m ≠ none)) := by
  refine ⟨?_, ?_, ?_, ?_⟩
  · intro services rcvr
    unfold registryRegisterName
    rw [if_pos rfl]
  · intro services name rcvr h1 h2
    unfold registryRegisterName
    rw [if_neg h1, if_pos (by simp [h2])]
  · intro services name rcvr svcOld h1 hlook h3
    refine ⟨?_, fun m hm => foldRegister_notin _ svcOld m hm,
      fun m hm => foldRegister_present _ svcOld m (Or.inr hm)⟩
    simp only [registryRegisterName]
    rw [if_neg h1, if_neg (by simp [List.isEmpty_iff, h3]), hlook]
  · intro services name rcvr h1 hlook h3
    refine ⟨?_,
      fun m hm => foldRegister_present _ ⟨name, [], []⟩ m (Or.inr hm)⟩
    simp only [registryRegisterName]
    rw [if_neg h1, if_neg (by simp [List.isEmpty_iff, h3]), hlook]

/-- C8 witness: the four clauses discharged on concrete registries — empty
name, no suitable methods, re-registration into an existing service, and
first-time registration of a fresh namespace. -/
theorem C8_registerName_contract_witness :
    registryRegisterName [] "" [⟨"Foo", "", [⟨false, false, false⟩], []⟩] =
      .error "no service name" ∧
    ("eth" ≠ "" ∧ suitableCallbacks [] = [] ∧
      registryRegisterName [] "eth" [] = .error "no suitable methods") ∧
    ("eth" ≠ "" ∧
      lookupA [("eth", (⟨"eth", [("old", ⟨[], false, -1, false⟩)], []⟩ : service))]
        "eth" = some ⟨"eth", [("old", ⟨[], false, -1, false⟩)], []⟩ ∧
      suitableCallbacks [⟨"Foo", "", [⟨false, false, false⟩], []⟩] ≠ [] ∧
      registryRegisterName
        [("eth", ⟨"eth", [("old", ⟨[], false, -1, false⟩)], []⟩)] "eth"
        [⟨"Foo", "", [⟨false, false, false⟩], []⟩] =
        .ok (insertA [("eth", ⟨"eth", [("old", ⟨[], false, -1, false⟩)], []⟩)]
          "eth"
          ((suitableCallbacks [⟨"Foo", "", [⟨false, false, false⟩], []⟩]).foldl
            registerStep ⟨"eth", [("old", ⟨[], false, -1, false⟩)], []⟩)) ∧
      ("old" ∉ (suitableCallbacks
          [⟨"Foo", "", [⟨false, false, false⟩], []⟩]).map Prod.fst ∧
        lookupA ((suitableCallbacks
            [⟨"Foo", "", [⟨false, false, false⟩], []⟩]).foldl registerStep
          ⟨"eth", [("old", ⟨[], false, -1, false⟩)], []⟩).callbacks "old" =
          lookupA [("old", (⟨[], false, -1, false⟩ : callback))] "old")) ∧
    ("web3" ≠ "" ∧
      lookupA ([] : List (String × service)) "web3" = none ∧
      suitableCallbacks [⟨"Foo", "", [⟨false, false, false⟩], []⟩] ≠ [] ∧
      registryRegisterName [] "web3"
        [⟨"Foo", "", [⟨false, false, false⟩], []⟩] =
        .ok (insertA [] "web3"
          ((suitableCallbacks [⟨"Foo", "", [⟨false, false, false⟩], []⟩]).foldl
            registerStep ⟨"web3", [], []⟩)) ∧
      ("foo" ∈ (suitableCallbacks
          [⟨"Foo", "", [⟨false, false, false⟩], []⟩]).map Prod.fst ∧
        (lookupA ((suitableCallbacks
            [⟨"Foo", "", [⟨false, false, false⟩], []⟩]).foldl registerStep
          (⟨"web3", [], []⟩ : service)).callbacks "foo" ≠ none ∨
         lookupA ((suitableCallbacks
            [⟨"Foo", "", [⟨false, false, false⟩], []⟩]).foldl registerStep
          (⟨"web3", [], []⟩ : service)).subscriptions "foo" ≠ none))) :=
  ⟨C8_registerName_contract.1 [] [⟨"Foo", "", [⟨false, false, false⟩], []⟩],
   ⟨by decide, by decide,
    C8_registerName_contract.2.1 [] "eth" [] (by decide) (by decide)⟩,
   by
    refine ⟨by decide, by decide, by decide, ?_, by decide, ?_⟩
    · exact (C8_registerName_contract.2.2.1
        [("eth", ⟨"eth", [("old", ⟨[], false, -1, false⟩)], []⟩)] "eth"
        [⟨"Foo", "", [⟨false, false, false⟩], []⟩]
        ⟨"eth", [("old", ⟨[], false, -1, false⟩)], []⟩
        (by decide) (by decide) (by decide)).1
    · exact ((C8_registerName_contract.2.2.1
        [("eth", ⟨"eth", [("old", ⟨[], false, -1, false⟩)], []⟩)] "eth"
        [⟨"Foo", "", [⟨false, false, false⟩], []⟩]
        ⟨"eth", [("old", ⟨[], false, -1, false⟩)], []⟩
        (by decide) (by decide) (by decide)).2.1 "old" (by decide)).1,
   by
    refine ⟨by decide, by decide, by decide, ?_, by decide, ?_⟩
    · exact (C8_registerName_contract.2.2.2 [] "web3"
        [⟨"Foo", "", [⟨false, false, false⟩], []⟩]
        (by decide) (by decide) (by decide)).1
    · exact (C8_registerName_contract.2.2.2 [] "web3"
        [⟨"Foo", "", [⟨false, false, false⟩], []⟩]
        (by decide) (by decide) (by decide)).2 "foo" (by decide)⟩

/-- C10: errorMessage builds a response whose id is the JSON literal null,
whose error code is the error's own code when it implements the coded-error
interface and the default code otherwise, whose error data is present exactly
when the error implements the data-error interface, and errResponse is the
same message with the answered request's id. -/
theorem C10_errorMessage_shape (e : GoError) (m : jsonrpcMessage) :
    errorMessage e =
      ⟨vsn, some "null", "", none,
        some ⟨e.errorCode.getD errcodeDefault, e.message, e.errorData⟩, none⟩ ∧
    errResponse m e = { errorMessage e with id := m.id } := by
  constructor
  · rcases e with ⟨msg, ec, ed⟩
    cases ec <;> cases ed <;> rfl
  · rfl

end Rpc
